import Mathlib

/-!
Verification development for the `traffic_core.py` module of the Scripts
repository: a configurable asynchronous HTTP traffic generator.

The Python source is shallowly embedded below.  Floating-point quantities
(rates, weights, probabilities, times) are modelled as rationals, Python
dictionaries as association lists with Python's insertion-order semantics,
`collections.Counter` as an association list of counts, and the random
number generator as explicit parameters (a uniform draw in `[0,1)` becomes a
rational argument `r`, `random.choice` / `random.randint` become index
arguments).  The `aiohttp` transport is out of scope of the repository and is
represented by the abstract result type `TransportResult` describing the
cases the `except` clauses of `_send_request` distinguish.
-/

namespace TrafficSpec

/-- JSON-like values: the Python dict / list / str / int / None payloads
built by `build_valid_order` and `build_invalid_order`. -/
inductive Json where
  | null : Json
  | str (s : String) : Json
  | num (n : Int) : Json
  | arr (xs : List Json) : Json
  | obj (fields : List (String × Json)) : Json

/-- Python `dict.get k` on an association list (Python dict keys are unique;
`find?` returns the binding for the first matching key). -/
def dictGet (d : List (String × String)) (k : String) : Option String :=
  (d.find? (fun p => p.1 == k)).map Prod.snd

/-- Python `d[k] = v`: update the value in place if the key is present
(keeping its position), else append the new binding. -/
def dictSet (d : List (String × String)) (k v : String) : List (String × String) :=
  if d.any (fun p => p.1 == k) then
    d.map (fun p => if p.1 == k then (p.1, v) else p)
  else
    d ++ [(k, v)]

/-- Python `d.update(u)`: fold `dictSet` over the updating dict. -/
def dictUpdate (d u : List (String × String)) : List (String × String) :=
  u.foldl (fun acc kv => dictSet acc kv.1 kv.2) d

/-- Python `d.setdefault k v`: insert `(k, v)` only when `k` is absent. -/
def dictSetdefault (d : List (String × String)) (k v : String) : List (String × String) :=
  if d.any (fun p => p.1 == k) then d else d ++ [(k, v)]

/-- `collections.Counter` increment `c[k] += 1`: bump the count of an existing
key in place, or append the key with count 1. -/
def counterAdd (c : List (String × Nat)) (k : String) : List (String × Nat) :=
  if c.any (fun p => p.1 == k) then
    c.map (fun p => if p.1 == k then (p.1, p.2 + 1) else p)
  else
    c ++ [(k, 1)]

/-- `Counter` lookup: the count of a key, 0 when absent. -/
def counterGet (c : List (String × Nat)) (k : String) : Nat :=
  ((c.find? (fun p => p.1 == k)).map Prod.snd).getD 0

/-- Sum of all counts of a counter (`sum(c.values())`). -/
def sumCounts (c : List (String × Nat)) : Nat :=
  (c.map Prod.snd).sum

/-! ## `TrafficConfig` (`traffic_core.py`, lines 107-163) -/

/-- The declared fields of the `TrafficConfig` dataclass.  `weights` and
`error_rates` are the entries of the Python dicts in insertion order. -/
structure TrafficConfig where
  target : String
  rps : ℚ
  traffic_type : String
  weights : List (String × ℚ)
  error_rates : List (String × ℚ)
  timeout_seconds : ℚ
  summary_interval : ℚ
  headers : List (String × String)

/-- The validation performed by `TrafficConfig.__post_init__` (lines 120-131):
the four `raise ValueError` guards, in source order. -/
def post_init_check (c : TrafficConfig) : Except String Unit :=
  if c.rps ≤ 0 then .error "rps must be a positive number"
  else if c.weights = [] then .error "weights must contain at least one endpoint"
  else if (c.weights.map Prod.snd).sum ≤ 0 then .error "weights must sum to a positive number"
  else if c.summary_interval < 0 then .error "summary_interval cannot be negative"
  else .ok ()

/-- `sum(self.weights.values())` (line 126). -/
def TrafficConfig.totalWeight (c : TrafficConfig) : ℚ :=
  (c.weights.map Prod.snd).sum

/-- `self._choices = list(self.weights.keys())` (line 133). -/
def TrafficConfig.choices (c : TrafficConfig) : List String :=
  c.weights.map Prod.fst

/-- `self._weight_probabilities = [w / total_weight for w in self.weights.values()]`
(line 134). -/
def TrafficConfig.weightProbabilities (c : TrafficConfig) : List ℚ :=
  c.weights.map (fun p => p.2 / c.totalWeight)

/-- Python `str.rstrip("/")`: drop all trailing slashes. -/
def rstripSlash (s : String) : String :=
  s.dropRightWhile (fun ch => ch == '/')

/-- `self.base_url` as computed at the end of `__post_init__` (lines 137-141). -/
def TrafficConfig.base_url (c : TrafficConfig) : String :=
  let base :=
    if c.target.startsWith "http://" || c.target.startsWith "https://" then c.target
    else "http://" ++ c.target
  rstripSlash base

/-- The merged header dict computed in `__post_init__` (lines 144-149):
defaults first, then `merged_headers.update(self.headers)`. -/
def TrafficConfig.mergedHeaders (c : TrafficConfig) : List (String × String) :=
  dictUpdate
    [("User-Agent", "foodme-" ++ c.traffic_type ++ "-load"),
     ("X-Traffic-Type", c.traffic_type)]
    c.headers

/-- `TrafficConfig.error_probability` (lines 162-163):
`float(self.error_rates.get(endpoint, 0.0))`. -/
def error_probability (c : TrafficConfig) (endpoint : String) : ℚ :=
  ((c.error_rates.find? (fun p => p.1 == endpoint)).map Prod.snd).getD 0

/-- The injection decision of `_one_cycle` (line 228):
`random.random() < self.config.error_probability(endpoint)`, with the uniform
draw `r` made explicit. -/
def should_inject (c : TrafficConfig) (endpoint : String) (r : ℚ) : Bool :=
  decide (r < error_probability c endpoint)

/-! ## `_send_request` outcome classification (lines 288-312) -/

/-- The possible results of the transport call inside `_send_request`,
one case per `except` clause: a completed response carrying a status;
`asyncio.TimeoutError`; `aiohttp.ClientResponseError` (which carries both a
numeric `.status` and a class name); any other `aiohttp.ClientError`; and the
defensive catch-all `except Exception`. -/
inductive TransportResult where
  | success (status : Nat)
  | timeoutError
  | clientResponseError (status : Nat) (excName : String)
  | clientError (excName : String)
  | otherError (excName : String)

/-- `TrafficGenerator._send_request` (lines 288-312): classify the transport
result into the returned pair `(status, exception_label)`. -/
def send_request : TransportResult → Option Nat × Option String
  | .success s => (some s, none)
  | .timeoutError => (none, some "timeout")
  | .clientResponseError s n => (some s, some n)
  | .clientError n => (none, some n)
  | .otherError n => (none, some n)

/-- Exactly one of the status code and the exception label is populated. -/
def exactlyOnePopulated (o : Option Nat × Option String) : Bool :=
  (o.1.isSome && o.2.isNone) || (o.1.isNone && o.2.isSome)

/-- At least one of the status code and the exception label is populated. -/
def atLeastOnePopulated (o : Option Nat × Option String) : Bool :=
  o.1.isSome || o.2.isSome

/-- Whether the transport raised `aiohttp.ClientResponseError`. -/
def isClientResponseError : TransportResult → Bool
  | .clientResponseError _ _ => true
  | _ => false

/-! ## Claim C1 -/

/-- Claim C1, counterexample: the claim that every classified outcome of
`_send_request` has exactly one of status code / exception kind populated is
false — the `aiohttp.ClientResponseError` branch (line 307) returns
`exc.status, exc.__class__.__name__`, populating both. -/
theorem send_request_not_exactly_one :
    exactlyOnePopulated
      (send_request (.clientResponseError 404 "ClientResponseError")) = false := by
  rfl

/-- Claim C1, amended: every classified outcome of `_send_request` has at
least one of the two fields populated, and exactly one unless the transport
raised `ClientResponseError`, in which case both the status code and the
exception kind are populated. -/
theorem send_request_populated_classification (t : TransportResult) :
    atLeastOnePopulated (send_request t) = true ∧
    (isClientResponseError t = false → exactlyOnePopulated (send_request t) = true) ∧
    (isClientResponseError t = true →
      (send_request t).1.isSome = true ∧ (send_request t).2.isSome = true) := by
  cases t <;> simp [send_request, atLeastOnePopulated, exactlyOnePopulated,
    isClientResponseError]

/-- Claim C1, witness for the amended theorem at concrete transport results. -/
theorem send_request_populated_classification_witness :
    exactlyOnePopulated (send_request .timeoutError) = true ∧
    (send_request (.clientResponseError 502 "ClientResponseError")).1.isSome = true := by
  refine ⟨(send_request_populated_classification .timeoutError).2.1 rfl, ?_⟩
  exact ((send_request_populated_classification
    (.clientResponseError 502 "ClientResponseError")).2.2 rfl).1

/-! ## Claim C2 -/

/-- Claim C2: `TrafficConfig` validation succeeds exactly when the rate is
positive, the weights mapping is non-empty with positive total, and the
summary interval is non-negative; each violated condition yields a
`ValueError` at construction time. -/
theorem post_init_validation (c : TrafficConfig) :
    (post_init_check c = .ok () ↔
      (0 < c.rps ∧ c.weights ≠ [] ∧ 0 < (c.weights.map Prod.snd).sum ∧
        0 ≤ c.summary_interval)) ∧
    (c.rps ≤ 0 ∨ c.weights = [] ∨ (c.weights.map Prod.snd).sum ≤ 0 ∨
        c.summary_interval < 0 →
      ∃ msg, post_init_check c = .error msg) := by
  unfold post_init_check
  split_ifs with h1 h2 h3 h4
  · exact ⟨iff_of_false (by intro h; cases h) (by rintro ⟨hr, -, -, -⟩; linarith),
      fun _ => ⟨_, rfl⟩⟩
  · exact ⟨iff_of_false (by intro h; cases h) (by rintro ⟨-, hw, -, -⟩; exact hw h2),
      fun _ => ⟨_, rfl⟩⟩
  · exact ⟨iff_of_false (by intro h; cases h) (by rintro ⟨-, -, hs, -⟩; linarith),
      fun _ => ⟨_, rfl⟩⟩
  · exact ⟨iff_of_false (by intro h; cases h) (by rintro ⟨-, -, -, hi⟩; linarith),
      fun _ => ⟨_, rfl⟩⟩
  · refine ⟨iff_of_true rfl ⟨by linarith, h2, by linarith, by linarith⟩, ?_⟩
    rintro (h | h | h | h)
    · exact absurd h h1
    · exact absurd h h2
    · exact absurd h h3
    · exact absurd h h4

/-! ## Generator metrics state (`TrafficGenerator.__init__`, lines 169-175)

The mutable counters of a `TrafficGenerator` instance: `self.metrics`
(a `Counter` keyed by status-code string), `self.exception_counts` (a
`Counter` keyed by exception-kind label) and `self.total_requests`.  There is
no per-endpoint counter in the class. -/

structure GenState where
  metrics : List (String × Nat)
  exception_counts : List (String × Nat)
  total_requests : Nat
deriving DecidableEq

/-- The state right after `TrafficGenerator.__init__`: empty counters. -/
def initState : GenState := ⟨[], [], 0⟩

/-- The outcome-recording portion of `_one_cycle` (lines 233-238): bump the
status-code counter when a status is present, bump the exception counter when
an exception label is present, then increment `total_requests`.  The selected
`endpoint` is in scope in `_one_cycle` (it is used to build the request and in
the debug log line) but is not used by the recording code. -/
def record_outcome (s : GenState) (endpoint : String)
    (outcome : Option Nat × Option String) : GenState :=
  let s1 := match outcome.1 with
    | some st => { s with metrics := counterAdd s.metrics (toString st) }
    | none => s
  let s2 := match outcome.2 with
    | some lbl => { s1 with exception_counts := counterAdd s1.exception_counts lbl }
    | none => s1
  { s2 with total_requests := s2.total_requests + 1 }

/-- Bumping a counter at a key distinct from the head entry skips the head. -/
theorem counterAdd_cons_ne (p : String × Nat) (c : List (String × Nat)) (k : String)
    (h : (p.1 == k) = false) : counterAdd (p :: c) k = p :: counterAdd c k := by
  have hne : ¬ (p.1 = k) := by simpa using h
  cases hc : c.any (fun q => q.1 == k) with
  | false => simp [counterAdd, List.any_cons, h, hc, hne]
  | true => simp [counterAdd, List.any_cons, h, hc, hne]

/-- Reading a counter at a key distinct from the head entry skips the head. -/
theorem counterGet_cons_ne (p : String × Nat) (c : List (String × Nat)) (k : String)
    (h : (p.1 == k) = false) : counterGet (p :: c) k = counterGet c k := by
  simp [counterGet, List.find?_cons, h]

/-- `counterAdd` increments the count of the bumped key by one. -/
theorem counterGet_counterAdd_self (c : List (String × Nat)) (k : String) :
    counterGet (counterAdd c k) k = counterGet c k + 1 := by
  induction c with
  | nil => simp [counterAdd, counterGet]
  | cons p c ih =>
    cases hpk : (p.1 == k) with
    | false =>
      rw [counterAdd_cons_ne p c k hpk, counterGet_cons_ne p _ k hpk,
        counterGet_cons_ne p c k hpk]
      exact ih
    | true =>
      have hpe : p.1 = k := by simpa using hpk
      have hany : (p :: c).any (fun q => q.1 == k) = true := by
        simp [List.any_cons, hpk]
      unfold counterAdd
      rw [if_pos hany]
      simp [counterGet, List.find?_cons, hpe]

/-! ## Claim C8 -/

/-- Claim C8, counterexample: recording an outcome does not touch any
per-endpoint counter — there is none.  Recording the same outcome under two
different selected endpoints produces identical aggregator states, so no
counter specific to the selected endpoint can have been incremented. -/
theorem record_ignores_endpoint_counterexample :
    record_outcome initState "get_root" (some 200, none)
      = record_outcome initState "get_list" (some 200, none) ∧
    "get_root" ≠ "get_list" :=
  ⟨rfl, by decide⟩

/-- Claim C8, amended: recording increments the total-cycle counter always,
the status-code counter exactly when a status is present, and the
exception-kind counter exactly when an exception label is present; the
aggregator state holds only status counts, exception counts and the total,
and recording is independent of the selected endpoint. -/
theorem record_increments_counters (s : GenState) (endpoint : String)
    (o : Option Nat × Option String) :
    (record_outcome s endpoint o).total_requests = s.total_requests + 1 ∧
    (∀ st, o.1 = some st →
      counterGet (record_outcome s endpoint o).metrics (toString st)
        = counterGet s.metrics (toString st) + 1) ∧
    (o.1 = none → (record_outcome s endpoint o).metrics = s.metrics) ∧
    (∀ lbl, o.2 = some lbl →
      counterGet (record_outcome s endpoint o).exception_counts lbl
        = counterGet s.exception_counts lbl + 1) ∧
    (o.2 = none → (record_outcome s endpoint o).exception_counts = s.exception_counts) ∧
    (∀ e2, record_outcome s endpoint o = record_outcome s e2 o) := by
  obtain ⟨o1, o2⟩ := o
  refine ⟨?_, ?_, ?_, ?_, ?_, fun _ => rfl⟩ <;>
    cases o1 <;> cases o2 <;>
      simp [record_outcome, counterGet_counterAdd_self]

/-- Claim C8, witness for the amended theorem at a concrete recording. -/
theorem record_increments_counters_witness :
    counterGet (record_outcome initState "get_one" (some 200, none)).metrics "200" = 1 ∧
    (record_outcome initState "get_one" (some 200, none)).exception_counts
      = initState.exception_counts ∧
    (record_outcome initState "get_one" (some 200, none)).total_requests = 1 := by
  have h := record_increments_counters initState "get_one" (some 200, none)
  exact ⟨h.2.1 200 rfl, h.2.2.2.2.1 rfl, h.1⟩

/-! ## `log_summary` (lines 314-337) -/

/-- The success test of `log_summary` line 317, on the counter key:
`status.isdigit() and status.startswith("2")`.  `isdigit` is "non-empty and
all characters are digits"; `startswith("2")` on such a key is "the first
character is `'2'`".  Stated over `String.data` so both sides are plain list
computations. -/
def isSuccessKey (s : String) : Bool :=
  (!(s.data.isEmpty) && s.data.all Char.isDigit) && s.data.take 1 == ['2']

/-- The summary snapshot assembled by `log_summary`: the numbers interpolated
into the emitted log line. -/
structure Summary where
  elapsed : ℚ
  final : Bool
  total : Nat
  success : Nat
  nonSuccess : Nat
  errors : Nat
deriving DecidableEq

/-- `TrafficGenerator.log_summary` (lines 314-337).  The method only reads the
counters; it is modelled state-passing style, returning the snapshot together
with the (unchanged) generator state. -/
def log_summary (s : GenState) (elapsed : ℚ) (final : Bool) : Summary × GenState :=
  let total_success := sumCounts (s.metrics.filter (fun p => isSuccessKey p.1))
  let total_failures := sumCounts s.metrics - total_success
  let total_errors := sumCounts s.exception_counts
  (⟨elapsed, final, s.total_requests, total_success, total_failures, total_errors⟩, s)

/-- Decimal value of a digit string (the spec-side reading of a status key as
a number, used to state "status in the range 200-299"). -/
def digitsVal : List Char → Nat → Nat
  | [], acc => acc
  | c :: cs, acc => digitsVal cs (acc * 10 + (c.toNat - 48))

/-- Numeric value of a counter key, when it is a non-empty digit string. -/
def statusKeyVal? (k : String) : Option Nat :=
  if !(k.data.isEmpty) && k.data.all Char.isDigit then some (digitsVal k.data 0)
  else none

/-- Spec-side predicate: the counter key denotes a status in 200-299. -/
def statusInRange200s (k : String) : Bool :=
  match statusKeyVal? k with
  | some n => decide (200 ≤ n) && decide (n ≤ 299)
  | none => false

/-- Total count of recorded statuses lying in 200-299. -/
def countStatuses200s (s : GenState) : Nat :=
  sumCounts (s.metrics.filter (fun p => statusInRange200s p.1))

set_option maxRecDepth 100000 in
set_option maxHeartbeats 1000000 in
/-- For three-digit statuses (100-599) the code's prefix-`2` test agrees with
membership in 200-299. -/
theorem successKey_eq_inRange_of_threeDigit :
    ∀ m : Nat, m < 600 → 100 ≤ m →
      isSuccessKey (toString m) = statusInRange200s (toString m) := by
  decide

/-! ## Claim C9 -/

/-- Claim C9, counterexample: in the (type-correct, recordable) state holding
one response with status 2000, the summary's success count is 1 while the
number of recorded statuses in the range 200-299 is 0 — the code counts any
all-digit status key starting with `'2'` as a success, not only 200-299. -/
theorem summary_success_range_counterexample :
    (log_summary (record_outcome initState "get_one" (some 2000, none)) 1 false).1.success
      = 1 ∧
    countStatuses200s (record_outcome initState "get_one" (some 2000, none)) = 0 ∧
    (log_summary (record_outcome initState "get_one" (some 2000, none)) 1 false).1.success
      ≠ countStatuses200s (record_outcome initState "get_one" (some 2000, none)) := by
  refine ⟨rfl, rfl, by decide⟩

/-- Claim C9, amended: the summary's success count totals the recorded status
keys that are all-digit strings starting with `'2'` (which coincides with the
range 200-299 whenever every recorded status is three-digit, i.e. in
100-599), the non-success count is the count of all other recorded statuses,
and summarizing does not mutate the state — two consecutive summaries with no
intervening record are identical. -/
theorem summary_success_prefix2 (s : GenState) (elapsed : ℚ) (final : Bool) :
    (log_summary s elapsed final).1.success
        = sumCounts (s.metrics.filter (fun p => isSuccessKey p.1)) ∧
    (log_summary s elapsed final).1.nonSuccess
        = sumCounts s.metrics - (log_summary s elapsed final).1.success ∧
    (log_summary s elapsed final).2 = s ∧
    (log_summary (log_summary s elapsed final).2 elapsed final).1
        = (log_summary s elapsed final).1 ∧
    ((∀ p ∈ s.metrics, ∃ n : Nat, 100 ≤ n ∧ n ≤ 599 ∧ p.1 = toString n) →
      (log_summary s elapsed final).1.success = countStatuses200s s) := by
  refine ⟨rfl, rfl, rfl, rfl, ?_⟩
  intro hkeys
  show sumCounts (s.metrics.filter (fun p => isSuccessKey p.1))
      = sumCounts (s.metrics.filter (fun p => statusInRange200s p.1))
  congr 1
  apply List.filter_congr
  intro p hp
  obtain ⟨n, hn1, hn2, hkey⟩ := hkeys p hp
  rw [hkey]
  exact successKey_eq_inRange_of_threeDigit n (by omega) hn1

/-- Claim C9, witness for the amended theorem on a concrete state whose
statuses are all three-digit. -/
theorem summary_success_prefix2_witness :
    (log_summary (record_outcome initState "get_list" (some 204, none)) 2 true).1.success
      = countStatuses200s (record_outcome initState "get_list" (some 204, none)) := by
  refine (summary_success_prefix2
      (record_outcome initState "get_list" (some 204, none)) 2 true).2.2.2.2 ?_
  intro p hp
  refine ⟨204, by omega, by omega, ?_⟩
  have : p = ("204", 1) := by
    simpa [record_outcome, initState, counterAdd] using hp
  rw [this]
  rfl

/-! ## The pacing loop (`TrafficGenerator.run`, lines 177-217)

`run` is an `async` loop driven by wall-clock readings, the stop event and
the behaviour of each cycle.  It is embedded as a function of an explicit
*script*: one `IterSpec` per loop iteration, giving what the environment does
during that iteration (whether the stop event is observed set at the loop
head, whether `_one_cycle` raises an uncaught exception, and how long the
cycle and the post-cycle bookkeeping take).  The loop runs until the script
is exhausted (modelling the stop event being set with no further iterations),
the stop event is observed, the duration check fires, or a cycle raises.
The observable actions are collected as a list of events. -/

/-- Observable actions of one execution of `run`. -/
inductive Event where
  | cycleRun (i : Nat)
  | summary (final : Bool)
  | sleep (d : ℚ)
  | raised (excName : String)
  | sessionReleased
deriving DecidableEq

/-- Environment behaviour of one loop iteration. `cycleTime` is the time from
`cycle_started` to the `now = time.monotonic()` reading after the cycle;
`postTime` is the additional time until the `time.monotonic()` reading inside
the `sleep_for` computation (it covers the duration check and any periodic
summary logging). -/
structure IterSpec where
  stopBefore : Bool
  raises : Option String
  cycleTime : ℚ
  postTime : ℚ

/-- The duration test of line 203, `if duration and (now - start) >= duration`,
including Python's falsiness of `None` and `0.0`. -/
def durationReached (duration : Option ℚ) (start now : ℚ) : Bool :=
  match duration with
  | none => false
  | some d => (!(d == 0)) && decide (now - start ≥ d)

/-- The periodic-summary step of lines 207-209:
`if next_summary and now >= next_summary`, emitting one periodic summary and
rescheduling the next one `summary_interval` after `now`. -/
def summaryStep (ns : Option ℚ) (now si : ℚ) : List Event × Option ℚ :=
  match ns with
  | none => ([], none)
  | some t =>
      if (!(t == 0)) && decide (now ≥ t) then ([Event.summary false], some (now + si))
      else ([], some t)

/-- The `while not self._stop_event.is_set()` loop of lines 198-213, one
script entry per iteration.  Returns the emitted events together with the
exception escaping the loop body, if any. -/
def runLoop (si iv : ℚ) (duration : Option ℚ) (start : ℚ) :
    List IterSpec → ℚ → Option ℚ → Nat → List Event × Option String
  | [], _, _, _ => ([], none)
  | it :: rest, now0, ns, i =>
    if it.stopBefore then ([], none)
    else
      match it.raises with
      | some e => ([Event.cycleRun i, Event.raised e], some e)
      | none =>
        let now := now0 + it.cycleTime
        if durationReached duration start now then ([Event.cycleRun i], none)
        else
          let step := summaryStep ns now si
          let t2 := now + it.postTime
          let sleep_for := iv - (t2 - now0)
          if 0 < sleep_for then
            let tail := runLoop si iv duration start rest (t2 + sleep_for) step.2 (i + 1)
            (Event.cycleRun i :: step.1 ++ Event.sleep sleep_for :: tail.1, tail.2)
          else
            let tail := runLoop si iv duration start rest t2 step.2 (i + 1)
            (Event.cycleRun i :: step.1 ++ tail.1, tail.2)

/-- `TrafficGenerator.run` (lines 177-217): open the client session, compute
`interval = 1.0 / rps` and the first summary deadline
(`start + summary_interval if summary_interval else None`), run the loop, and
— in the `finally` block and on exit from `async with` — emit the final
summary and release the session on every exit path, propagating any escaped
exception. -/
def generator_run (c : TrafficConfig) (duration : Option ℚ) (start : ℚ)
    (script : List IterSpec) : List Event × Option String :=
  let interval := 1 / c.rps
  let ns : Option ℚ :=
    if c.summary_interval == 0 then none else some (start + c.summary_interval)
  let body := runLoop c.summary_interval interval duration start script start ns 0
  (body.1 ++ [Event.summary true, Event.sessionReleased], body.2)

/-- Events the generator may emit while the loop is still running: neither
the final summary nor the session release appears inside the loop. -/
def isTerminalEvent : Event → Bool
  | .summary true => true
  | .sessionReleased => true
  | _ => false

/-- A periodic-summary step emits either nothing or one non-final summary. -/
theorem summaryStep_events (ns : Option ℚ) (now si : ℚ) :
    (summaryStep ns now si).1 = [] ∨ (summaryStep ns now si).1 = [Event.summary false] := by
  unfold summaryStep
  cases ns with
  | none => exact Or.inl rfl
  | some t =>
    cases hcond : ((!(t == 0)) && decide (now ≥ t)) with
    | false => simp [hcond]
    | true => simp [hcond]

/-- The loop body never emits a final summary or a session release. -/
theorem runLoop_no_terminal_events (si iv : ℚ) (d : Option ℚ) (st : ℚ) :
    ∀ (script : List IterSpec) (now : ℚ) (ns : Option ℚ) (i : Nat),
      ∀ e ∈ (runLoop si iv d st script now ns i).1, isTerminalEvent e = false := by
  intro script
  induction script with
  | nil => intro now ns i e he; simp [runLoop] at he
  | cons it rest ih =>
    intro now ns i e he
    cases hstop : it.stopBefore with
    | true => simp [runLoop, hstop] at he
    | false =>
      cases hr : it.raises with
      | some exc =>
        simp only [runLoop, hstop, Bool.false_eq_true, if_false, hr,
          List.mem_cons, List.not_mem_nil, or_false] at he
        rcases he with he | he <;> (subst he; rfl)
      | none =>
        cases hd : durationReached d st (now + it.cycleTime) with
        | true =>
          simp only [runLoop, hstop, Bool.false_eq_true, if_false, hr, hd, if_true,
            List.mem_cons, List.not_mem_nil, or_false] at he
          subst he; rfl
        | false =>
          simp only [runLoop, hstop, Bool.false_eq_true, if_false, hr, hd] at he
          rcases summaryStep_events ns (now + it.cycleTime) si with hs | hs
          · rw [hs] at he
            split_ifs at he with hsl
            · dsimp only at he
              simp only [List.singleton_append, List.cons_append, List.nil_append,
                List.mem_cons] at he
              rcases he with he | he | he
              · subst he; rfl
              · subst he; rfl
              · exact ih _ _ _ e he
            · dsimp only at he
              simp only [List.singleton_append, List.cons_append, List.nil_append,
                List.mem_cons] at he
              rcases he with he | he
              · subst he; rfl
              · exact ih _ _ _ e he
          · rw [hs] at he
            split_ifs at he with hsl
            · dsimp only at he
              simp only [List.singleton_append, List.cons_append, List.nil_append,
                List.mem_cons] at he
              rcases he with he | he | he | he
              · subst he; rfl
              · subst he; rfl
              · subst he; rfl
              · exact ih _ _ _ e he
            · dsimp only at he
              simp only [List.singleton_append, List.cons_append, List.nil_append,
                List.mem_cons] at he
              rcases he with he | he | he
              · subst he; rfl
              · subst he; rfl
              · exact ih _ _ _ e he

/-! ## Claim C7 -/

/-- Claim C7: on every exit path of `run` — duration expiry, external
cancellation (stop event observed or no further iterations), or an exception
raised inside a cycle — exactly one final summary is emitted and the client
session is released (by the `finally` block and the closing of
`async with aiohttp.ClientSession(...)`), the release being the last action. -/
theorem run_release_and_final_summary (c : TrafficConfig) (duration : Option ℚ)
    (start : ℚ) (script : List IterSpec) :
    (generator_run c duration start script).1.count (Event.summary true) = 1 ∧
    (generator_run c duration start script).1.count Event.sessionReleased = 1 ∧
    (generator_run c duration start script).1.getLast? = some Event.sessionReleased := by
  unfold generator_run
  dsimp only
  have hbody := runLoop_no_terminal_events c.summary_interval (1 / c.rps) duration start
    script start
    (if c.summary_interval == 0 then none else some (start + c.summary_interval)) 0
  set L := (runLoop c.summary_interval (1 / c.rps) duration start script start
    (if c.summary_interval == 0 then none else some (start + c.summary_interval)) 0).1
    with hLdef
  have hfin : L.count (Event.summary true) = 0 := by
    rw [List.count_eq_zero]
    intro hmem
    have := hbody _ hmem
    simp [isTerminalEvent] at this
  have hrel : L.count Event.sessionReleased = 0 := by
    rw [List.count_eq_zero]
    intro hmem
    have := hbody _ hmem
    simp [isTerminalEvent] at this
  refine ⟨?_, ?_, ?_⟩
  · rw [List.count_append, hfin]; rfl
  · rw [List.count_append, hrel]; rfl
  · rw [show [Event.summary true, Event.sessionReleased]
        = [Event.summary true] ++ [Event.sessionReleased] from rfl,
      ← List.append_assoc, List.getLast?_concat]

/-! ## Claim C6 -/

/-- Claim C6: in a normally completing iteration (no stop, no raise, duration
not reached), when the measured cycle duration `cycleTime + postTime` is less
than the target interval the loop sleeps for exactly the remainder
`interval - duration` and the next cycle starts exactly at `now0 + interval`;
when the duration is at least the interval there is no sleep event and the
next cycle starts immediately at `now0 + cycleTime + postTime`, with no
compensation for the overrun. -/
theorem pacing_sleep_remainder (si iv : ℚ) (d : Option ℚ) (st : ℚ)
    (it : IterSpec) (rest : List IterSpec) (now0 : ℚ) (ns : Option ℚ) (i : Nat)
    (hstop : it.stopBefore = false) (hraise : it.raises = none)
    (hdur : durationReached d st (now0 + it.cycleTime) = false) :
    (it.cycleTime + it.postTime < iv →
      runLoop si iv d st (it :: rest) now0 ns i
        = (Event.cycleRun i :: (summaryStep ns (now0 + it.cycleTime) si).1
              ++ Event.sleep (iv - (it.cycleTime + it.postTime))
              :: (runLoop si iv d st rest (now0 + iv)
                    (summaryStep ns (now0 + it.cycleTime) si).2 (i + 1)).1,
           (runLoop si iv d st rest (now0 + iv)
              (summaryStep ns (now0 + it.cycleTime) si).2 (i + 1)).2)) ∧
    (iv ≤ it.cycleTime + it.postTime →
      runLoop si iv d st (it :: rest) now0 ns i
        = (Event.cycleRun i :: (summaryStep ns (now0 + it.cycleTime) si).1
              ++ (runLoop si iv d st rest (now0 + it.cycleTime + it.postTime)
                    (summaryStep ns (now0 + it.cycleTime) si).2 (i + 1)).1,
           (runLoop si iv d st rest (now0 + it.cycleTime + it.postTime)
              (summaryStep ns (now0 + it.cycleTime) si).2 (i + 1)).2)) := by
  have harg : now0 + it.cycleTime + it.postTime - now0 = it.cycleTime + it.postTime := by
    ring
  constructor
  · intro hlt
    have hslp : (0:ℚ) < iv - (now0 + it.cycleTime + it.postTime - now0) := by
      rw [harg]; linarith
    have harg2 : now0 + it.cycleTime + it.postTime
        + (iv - (it.cycleTime + it.postTime)) = now0 + iv := by ring
    simp only [runLoop, hstop, Bool.false_eq_true, if_false, hraise, hdur]
    rw [if_pos hslp, harg, harg2]
  · intro hge
    have hslp : ¬ ((0:ℚ) < iv - (now0 + it.cycleTime + it.postTime - now0)) := by
      rw [harg]; linarith
    simp only [runLoop, hstop, Bool.false_eq_true, if_false, hraise, hdur]
    rw [if_neg hslp]

/-- Claim C6, witness: with interval 1 s and a cycle taking 1/4 + 1/4 s, the
loop emits a sleep of exactly 1/2 s. -/
theorem pacing_sleep_remainder_witness :
    runLoop 0 1 none 0 [⟨false, none, 1/4, 1/4⟩] 0 none 0
      = ([Event.cycleRun 0, Event.sleep (1/2)], none) := by
  have h := (pacing_sleep_remainder 0 1 none 0 ⟨false, none, 1/4, 1/4⟩ [] 0 none 0
    rfl rfl rfl).1 (by norm_num)
  rw [h]
  norm_num [runLoop, summaryStep]

/-! ## Claim C10 -/

/-- A requested duration of 0 is falsy in Python, so the loop behaves exactly
as if no duration had been given. -/
theorem runLoop_duration_zero (si iv st : ℚ) :
    ∀ (script : List IterSpec) (now : ℚ) (ns : Option ℚ) (i : Nat),
      runLoop si iv (some 0) st script now ns i
        = runLoop si iv none st script now ns i := by
  intro script
  induction script with
  | nil => intro now ns i; rfl
  | cons it rest ih =>
    intro now ns i
    have hd : ∀ x, durationReached (some 0) st x = durationReached none st x := by
      intro x; simp [durationReached]
    simp only [runLoop, hd, ih]

/-- Claim C10: when `run` starts with the stop flag unset, the first cycle
executes before the duration condition is ever evaluated (line 200 precedes
line 203), whatever the duration; and a duration of 0 is falsy at line 203,
so the run is identical to one with no duration at all — it never stops by
duration expiry. -/
theorem run_first_cycle_and_zero_duration :
    (∀ (c : TrafficConfig) (d : Option ℚ) (st : ℚ) (it : IterSpec)
        (rest : List IterSpec), it.stopBefore = false →
      Event.cycleRun 0 ∈ (generator_run c d st (it :: rest)).1) ∧
    (∀ (c : TrafficConfig) (st : ℚ) (script : List IterSpec),
      generator_run c (some 0) st script = generator_run c none st script) := by
  constructor
  · intro c d st it rest hstop
    unfold generator_run
    dsimp only
    apply List.mem_append_left
    simp only [runLoop, hstop, Bool.false_eq_true, if_false]
    cases hr : it.raises with
    | some e => simp
    | none =>
      cases hd : durationReached d st (st + it.cycleTime) with
      | true => simp
      | false =>
        dsimp only
        split_ifs <;> simp
  · intro c st script
    unfold generator_run
    dsimp only
    rw [runLoop_duration_zero]

/-- Concrete configuration used in the claim C10 witness. -/
def c10cfg : TrafficConfig :=
  ⟨"localhost:3000", 1, "mixed", [("get_root", 1)], [], 5, 30, []⟩

/-- Claim C10, witness: with the stop flag unset, the first cycle runs even
though the requested duration (1/1000 s) is far exceeded by it. -/
theorem run_first_cycle_and_zero_duration_witness :
    Event.cycleRun 0 ∈ (generator_run c10cfg (some (1/1000)) 0 [⟨false, none, 5, 0⟩]).1 :=
  run_first_cycle_and_zero_duration.1 c10cfg (some (1/1000)) 0 ⟨false, none, 5, 0⟩ [] rfl

/-! ## Weighted endpoint selection (`choose_endpoint`, lines 157-160)

`random.choices(population, weights, k=1)` computes
`cum_weights = list(itertools.accumulate(weights))`,
`total = cum_weights[-1]`, and returns
`population[bisect.bisect(cum_weights, random() * total, 0, len(population) - 1)]`.
The uniform draw `random()` is the explicit argument `r`. -/

/-- `itertools.accumulate`: running totals of a list. -/
def cumAcc (acc : ℚ) : List ℚ → List ℚ
  | [] => []
  | x :: xs => (acc + x) :: cumAcc (acc + x) xs

/-- `bisect.bisect_right cum x` on a non-decreasing list: the index of the
first entry strictly greater than `x`, or the length if there is none. -/
def bisectIdx : List ℚ → ℚ → Nat
  | [], _ => 0
  | c :: cs, x => if x < c then 0 else bisectIdx cs x + 1

/-- The index `random.choices` selects for the uniform draw `r`. -/
def chooseIdx (c : TrafficConfig) (r : ℚ) : Nat :=
  let probs := c.weightProbabilities
  let cum := cumAcc 0 probs
  min (bisectIdx cum (r * cum.getLastD 0)) (probs.length - 1)

/-- `TrafficConfig.choose_endpoint` (lines 157-160):
`random.choices(self._choices, weights=self._weight_probabilities, k=1)[0]`,
for the uniform draw `r`. -/
def choose_endpoint (c : TrafficConfig) (r : ℚ) : String :=
  c.choices.getD (chooseIdx c r) ""

/-- Partial sums of a probability list: `partialSum l i` is the sum of the
first `i` entries, so entry `i` occupies `[partialSum l i, partialSum l (i+1))`. -/
def partialSum (l : List ℚ) (i : Nat) : ℚ :=
  (l.take i).sum

theorem partialSum_cons (p : ℚ) (ps : List ℚ) (i : Nat) :
    partialSum (p :: ps) (i + 1) = p + partialSum ps i := by
  simp [partialSum, List.take_succ_cons]

theorem partialSum_nonneg (l : List ℚ) (i : Nat) (h : ∀ y ∈ l, 0 ≤ y) :
    0 ≤ partialSum l i :=
  List.sum_nonneg (fun y hy => h y (List.take_subset i l hy))

theorem cumAcc_getLastD (l : List ℚ) :
    ∀ acc : ℚ, (cumAcc acc l).getLastD acc = acc + l.sum := by
  induction l with
  | nil => intro acc; simp [cumAcc]
  | cons x xs ih =>
    intro acc
    simp only [cumAcc, List.getLastD_cons, List.sum_cons, ih (acc + x)]
    ring

theorem sum_map_div (l : List ℚ) (W : ℚ) :
    (l.map (fun x => x / W)).sum = l.sum / W := by
  induction l with
  | nil => simp
  | cons x xs ih => simp [ih, add_div]

/-- The normalized probability vector sums to exactly 1 (so the value
`random() * total` handed to `bisect` is just `r`). -/
theorem weightProbabilities_sum (c : TrafficConfig) (h : c.totalWeight ≠ 0) :
    c.weightProbabilities.sum = 1 := by
  have : c.weightProbabilities = (c.weights.map Prod.snd).map (fun x => x / c.totalWeight) := by
    simp [TrafficConfig.weightProbabilities, List.map_map, Function.comp]
  rw [this, sum_map_div]
  exact div_self h

theorem getD_map_of_lt (f : α → β) (l : List α) (d1 : α) (d2 : β) :
    ∀ i, i < l.length → (l.map f).getD i d2 = f (l.getD i d1) := by
  induction l with
  | nil => intro i h; simp at h
  | cons a l ih =>
    intro i h
    cases i with
    | zero => rfl
    | succ j => simpa [List.getD] using ih j (by simpa using h)

/-- `bisect` on the running totals of a non-negative list lands on the index
whose half-open slot contains `x`. -/
theorem bisectIdx_cumAcc (l : List ℚ) :
    ∀ (acc x : ℚ) (i : Nat), (∀ y ∈ l, 0 ≤ y) → i < l.length →
      acc + partialSum l i ≤ x → x < acc + partialSum l (i + 1) →
      bisectIdx (cumAcc acc l) x = i := by
  induction l with
  | nil => intro acc x i _ h; simp at h
  | cons p ps ih =>
    intro acc x i hnn hi hlo hhi
    cases i with
    | zero =>
      have hx : x < acc + p := by
        have := hhi
        rw [partialSum_cons] at this
        simp [partialSum] at this
        linarith
      simp [cumAcc, bisectIdx, hx]
    | succ j =>
      have hps : ∀ y ∈ ps, 0 ≤ y := fun y hy => hnn y (List.mem_cons_of_mem _ hy)
      have hj : 0 ≤ partialSum ps j := partialSum_nonneg ps j hps
      rw [partialSum_cons] at hlo hhi
      have hge : ¬ (x < acc + p) := by push_neg; linarith
      simp only [cumAcc, bisectIdx, if_neg hge]
      have := ih (acc + p) x j hps (by simpa using hi)
        (by linarith) (by linarith)
      omega

/-- Every draw in `[0, sum)` lands in the slot of some index. -/
theorem partialSum_coverage (l : List ℚ) :
    ∀ r : ℚ, (∀ y ∈ l, 0 ≤ y) → 0 ≤ r → r < l.sum →
      ∃ i, i < l.length ∧ partialSum l i ≤ r ∧ r < partialSum l (i + 1) := by
  induction l with
  | nil => intro r _ h0 h1; simp at h1; linarith
  | cons p ps ih =>
    intro r hnn h0 h1
    by_cases hp : r < p
    · refine ⟨0, by simp, by simpa [partialSum] using h0, ?_⟩
      rw [partialSum_cons]
      simp [partialSum]
      linarith
    · push_neg at hp
      have hps : ∀ y ∈ ps, 0 ≤ y := fun y hy => hnn y (List.mem_cons_of_mem _ hy)
      have h1' : r - p < ps.sum := by
        rw [List.sum_cons] at h1; linarith
      obtain ⟨j, hj, hlo, hhi⟩ := ih (r - p) hps (by linarith) h1'
      refine ⟨j + 1, by simpa using hj, ?_, ?_⟩
      · rw [partialSum_cons]; linarith
      · rw [partialSum_cons]; linarith

/-! ## Claim C3 -/

/-- Claim C3: endpoint selection is a single weighted draw with replacement.
The normalized vector built at construction satisfies `p_i = w_i / total`;
each index `i` occupies the half-open slot
`[partialSum i, partialSum (i+1))` of length `w_i / total` within `[0, 1)`;
every uniform draw falls in exactly one slot and selects that endpoint; the
draw is a function of the configuration and the single fresh uniform value
only, so it is independent of all previous draws. -/
theorem choose_endpoint_weighted_distribution (c : TrafficConfig)
    (hpos : 0 < c.totalWeight) (hnn : ∀ p ∈ c.weights, 0 ≤ p.2) :
    (∀ i, i < c.weights.length →
      c.weightProbabilities.getD i 0
        = (c.weights.getD i ("", 0)).2 / c.totalWeight) ∧
    (∀ i, i < c.weights.length →
      partialSum c.weightProbabilities (i + 1) - partialSum c.weightProbabilities i
        = c.weightProbabilities.getD i 0) ∧
    (∀ i, i < c.weights.length → ∀ r : ℚ,
      partialSum c.weightProbabilities i ≤ r →
      r < partialSum c.weightProbabilities (i + 1) →
      chooseIdx c r = i ∧ choose_endpoint c r = (c.weights.getD i ("", 0)).1) ∧
    (∀ r : ℚ, 0 ≤ r → r < 1 →
      ∃ i, i < c.weights.length ∧ partialSum c.weightProbabilities i ≤ r ∧
        r < partialSum c.weightProbabilities (i + 1)) := by
  have hlen : c.weightProbabilities.length = c.weights.length := by
    simp [TrafficConfig.weightProbabilities]
  have hprobnn : ∀ y ∈ c.weightProbabilities, 0 ≤ y := by
    intro y hy
    obtain ⟨p, hp, rfl⟩ := List.mem_map.mp hy
    exact div_nonneg (hnn p hp) hpos.le
  have hsum : c.weightProbabilities.sum = 1 := weightProbabilities_sum c hpos.ne.symm
  have hgetD : ∀ i, i < c.weights.length →
      c.weightProbabilities.getD i 0 = (c.weights.getD i ("", 0)).2 / c.totalWeight := by
    intro i hi
    exact getD_map_of_lt (fun p => p.2 / c.totalWeight) c.weights ("", 0) 0 i hi
  have hslot : ∀ i, i < c.weights.length →
      partialSum c.weightProbabilities (i + 1) - partialSum c.weightProbabilities i
        = c.weightProbabilities.getD i 0 := by
    intro i hi
    rw [← hlen] at hi
    clear hgetD hsum hprobnn hlen
    generalize c.weightProbabilities = l at *
    induction l generalizing i with
    | nil => simp at hi
    | cons p ps ih =>
      cases i with
      | zero => simp [partialSum_cons, partialSum, List.getD]
      | succ j =>
        rw [partialSum_cons, partialSum_cons]
        have := ih j (by simpa using hi)
        simpa [List.getD] using this
  refine ⟨hgetD, hslot, ?_, ?_⟩
  · intro i hi r hlo hhi
    have hx : r * (cumAcc 0 c.weightProbabilities).getLastD 0 = r := by
      rw [show (cumAcc 0 c.weightProbabilities).getLastD 0
            = (cumAcc 0 c.weightProbabilities).getLastD (0:ℚ) from rfl,
        cumAcc_getLastD, hsum]
      ring
    have hbis : bisectIdx (cumAcc 0 c.weightProbabilities) r = i := by
      apply bisectIdx_cumAcc c.weightProbabilities 0 r i hprobnn (hlen ▸ hi)
      · simpa using hlo
      · simpa using hhi
    have hidx : chooseIdx c r = i := by
      unfold chooseIdx
      dsimp only
      rw [hx, hbis]
      have : i < c.weightProbabilities.length := hlen ▸ hi
      omega
    refine ⟨hidx, ?_⟩
    unfold choose_endpoint
    rw [hidx]
    exact getD_map_of_lt Prod.fst c.weights ("", 0) "" i hi
  · intro r h0 h1
    have := partialSum_coverage c.weightProbabilities r hprobnn h0 (by rw [hsum]; exact h1)
    obtain ⟨i, hi, hlo, hhi⟩ := this
    exact ⟨i, hlen ▸ hi, hlo, hhi⟩

/-- Concrete configuration used in the claim C3 witness: weights
`{get_root: 1, get_list: 3}`. -/
def c3cfg : TrafficConfig :=
  ⟨"localhost", 2, "mixed", [("get_root", 1), ("get_list", 3)], [], 5, 30, []⟩

/-- Claim C3, witness: with weights 1 and 3 the probabilities are 1/4 and
3/4, and the draw `r = 1/2` falls in the slot of index 1 and selects
`get_list`. -/
theorem choose_endpoint_weighted_distribution_witness :
    c3cfg.weightProbabilities.getD 1 0 = 3 / 4 ∧
    chooseIdx c3cfg (1 / 2) = 1 ∧
    choose_endpoint c3cfg (1 / 2) = "get_list" := by
  have h := choose_endpoint_weighted_distribution c3cfg
    (by norm_num [TrafficConfig.totalWeight, c3cfg])
    (by intro p hp; fin_cases hp <;> norm_num)
  have hb : (1 : Nat) < c3cfg.weights.length := by norm_num [c3cfg]
  have hslot := h.2.2.1 1 hb (1 / 2)
    (by norm_num [partialSum, c3cfg, TrafficConfig.weightProbabilities,
      TrafficConfig.totalWeight])
    (by norm_num [partialSum, c3cfg, TrafficConfig.weightProbabilities,
      TrafficConfig.totalWeight])
  refine ⟨?_, hslot.1, hslot.2.trans (by rfl)⟩
  rw [h.1 1 hb]
  norm_num [c3cfg, TrafficConfig.totalWeight]

/-! ## Claim C4 -/

/-- Claim C4: the per-cycle injection decision is a Bernoulli draw with
success probability `error_rates.get(endpoint, 0.0)`: over the uniform draw
`r ∈ [0, 1)` the set of injecting draws is exactly the interval `[0, p)` of
length `p`; for an endpoint absent from the mapping the probability is 0 and
injection never happens, so the endpoint's good variant is always used. -/
theorem error_injection_bernoulli (c : TrafficConfig) (endpoint : String) :
    (c.error_rates.find? (fun p => p.1 == endpoint) = none →
      error_probability c endpoint = 0 ∧
      ∀ r : ℚ, 0 ≤ r → should_inject c endpoint r = false) ∧
    (∀ p : ℚ, error_probability c endpoint = p → 0 ≤ p → p ≤ 1 →
      {r : ℚ | 0 ≤ r ∧ r < 1 ∧ should_inject c endpoint r = true} = Set.Ico 0 p) := by
  constructor
  · intro habs
    have h0 : error_probability c endpoint = 0 := by
      simp [error_probability, habs]
    refine ⟨h0, fun r hr => ?_⟩
    simp only [should_inject, h0, decide_eq_false_iff_not, not_lt]
    exact hr
  · intro p hp h0 h1
    ext r
    simp only [Set.mem_setOf_eq, Set.mem_Ico, should_inject, hp, decide_eq_true_eq]
    constructor
    · rintro ⟨ha, -, hc⟩; exact ⟨ha, hc⟩
    · rintro ⟨ha, hc⟩; exact ⟨ha, by linarith, hc⟩

/-- Concrete configuration used in the claim C4 witness: error rates
`{post_order: 1/2}`. -/
def c4cfg : TrafficConfig :=
  ⟨"localhost", 1, "good", [("get_root", 1)], [("post_order", 1 / 2)], 5, 30, []⟩

/-- Claim C4, witness: `get_root` is absent from the error rates, so its
probability is 0 and injection never fires; `post_order` has probability
1/2 and its injecting draws form exactly `[0, 1/2)`. -/
theorem error_injection_bernoulli_witness :
    error_probability c4cfg "get_root" = 0 ∧
    should_inject c4cfg "get_root" (1 / 2) = false ∧
    {r : ℚ | 0 ≤ r ∧ r < 1 ∧ should_inject c4cfg "post_order" r = true}
      = Set.Ico 0 (1 / 2) := by
  have h1 := (error_injection_bernoulli c4cfg "get_root").1 rfl
  have h2 := (error_injection_bernoulli c4cfg "post_order").2 (1 / 2) rfl
    (by norm_num) (by norm_num)
  exact ⟨h1.1, h1.2 (1 / 2) (by norm_num), h2⟩

/-! ## Request building (`_build_request`, lines 243-286) -/

/-- Known restaurant identifiers used by the FoodMe demo API (lines 32-72). -/
def RESTAURANT_IDS : List String :=
  ["esthers", "robatayaki", "tofuparadise", "bateaurouge", "khartoum", "sallys",
   "saucy", "czechpoint", "speisewagen", "beijing", "satay", "cancun", "curryup",
   "carthage", "burgerama", "littlepigs", "littleprague", "kohlhaus", "dragon",
   "babythai", "wholetamale", "bhangra", "taqueria", "pedros", "superwonton",
   "naansequitur", "sakura", "shandong", "currygalore", "north", "beans",
   "jeeves", "zardoz", "angular", "flavia", "luigis", "thick", "wheninrome",
   "pizza76"]

/-- `build_valid_order` (lines 81-91); `qty` stands for `random.randint(1, 3)`. -/
def build_valid_order (qty : Nat) : Json :=
  .obj [("items", .arr [.obj [("name", .str "Pizza"), ("qty", .num qty)],
                        .obj [("name", .str "Salad"), ("qty", .num 1)]]),
        ("deliverTo", .obj [("name", .str "Test User")]),
        ("restaurant", .obj [("name", .str "Demo")])]

/-- A create-order payload as produced by the order builders: a JSON value, a
plain text body, or Python `None` (absent body). -/
inductive Payload where
  | jsonVal (j : Json)
  | textVal (s : String)
  | noneVal

/-- The fixed tuple of malformed payloads in `build_invalid_order`
(lines 97-103): empty item list, missing nested fields, bogus text,
wrong-typed field, absent body. -/
def malformed_payloads : List Payload :=
  [.jsonVal (.obj [("items", .arr [])]),
   .jsonVal (.obj [("deliverTo", .obj [])]),
   .textVal "\x7b this is not valid json \x7d",
   .jsonVal (.obj [("items", .arr [.obj [("qty", .str "not-an-int")]])]),
   .noneVal]

/-- `build_invalid_order` (lines 94-104): `random.choice` over the fixed
tuple, with the random index `k` made explicit (reduced modulo the size). -/
def build_invalid_order (k : Nat) : Payload :=
  malformed_payloads.getD (k % malformed_payloads.length) .noneVal

/-- The random draws consumed by `_build_request`: the index drawn by
`random.choice(RESTAURANT_IDS)`, the index drawn inside
`build_invalid_order`, and the `randint(1, 3)` quantity. -/
structure BuildRand where
  restaurantIdx : Nat
  invalidIdx : Nat
  qty : Nat

/-- The body passed to `session.request`: the `json=payload` kwarg, the
`data=payload` kwarg, or no body kwarg at all. -/
inductive ReqBody where
  | jsonBody (j : Json)
  | dataBody (s : String)
  | noBody

/-- The `(url, method, kwargs)` triple returned by `_build_request`. -/
structure BuiltRequest where
  url : String
  method : String
  headers : List (String × String)
  body : ReqBody

/-- `TrafficGenerator._build_request` (lines 243-286).  `base_headers` is
`_normalize_headers(self.config.headers)`, a copy of the post-init merged
headers; an unknown endpoint raises `ValueError`. -/
def build_request (c : TrafficConfig) (endpoint : String) (inject_error : Bool)
    (rnd : BuildRand) : Except String BuiltRequest :=
  let base_headers := c.mergedHeaders
  let url := c.base_url
  if endpoint = "get_root" then
    .ok ⟨url ++ "/", "GET", base_headers, .noBody⟩
  else if endpoint = "get_list" then
    .ok ⟨url ++ "/api/restaurant", "GET", base_headers, .noBody⟩
  else if endpoint = "get_one" then
    let restaurant_id :=
      if !inject_error then
        RESTAURANT_IDS.getD (rnd.restaurantIdx % RESTAURANT_IDS.length) ""
      else "invalid_restaurant"
    .ok ⟨url ++ "/api/restaurant/" ++ restaurant_id, "GET", base_headers, .noBody⟩
  else if endpoint = "post_order" then
    let payload := if inject_error then build_invalid_order rnd.invalidIdx
      else Payload.jsonVal (build_valid_order rnd.qty)
    let headers := dictSetdefault base_headers "Content-Type" "application/json"
    match payload with
    | .textVal s => .ok ⟨url ++ "/api/order", "POST", headers, .dataBody s⟩
    | .noneVal => .ok ⟨url ++ "/api/order", "POST", headers, .noBody⟩
    | .jsonVal j => .ok ⟨url ++ "/api/order", "POST", headers, .jsonBody j⟩
  else if endpoint = "bogus" then
    let bogus_path := if !inject_error then "/api/nope" else "/totally-invalid"
    .ok ⟨url ++ bogus_path, "GET", base_headers, .noBody⟩
  else
    .error ("Unknown endpoint " ++ endpoint)

/-! ## Claim C5 -/

/-- Claim C5: every malformed create-order payload is drawn from the fixed
five-element set (empty item list, missing delivery-target object,
non-JSON-parseable body text, wrong-typed field value, absent body); building
the `post_order` request never fails for any of them; and when the malformed
payload is plain text the request is sent with the `data` body exactly equal
to that text, with method and headers unchanged relative to the good
variant. -/
theorem invalid_order_fixed_set (c : TrafficConfig) (rnd : BuildRand) :
    (∀ k : Nat, build_invalid_order k ∈
      [Payload.jsonVal (.obj [("items", .arr [])]),
       Payload.jsonVal (.obj [("deliverTo", .obj [])]),
       Payload.textVal "\x7b this is not valid json \x7d",
       Payload.jsonVal (.obj [("items", .arr [.obj [("qty", .str "not-an-int")]])]),
       Payload.noneVal]) ∧
    (∃ req, build_request c "post_order" true rnd = Except.ok req) ∧
    (∀ s : String, build_invalid_order rnd.invalidIdx = .textVal s →
      ∃ good bad : BuiltRequest,
        build_request c "post_order" false rnd = .ok good ∧
        build_request c "post_order" true rnd = .ok bad ∧
        bad.body = .dataBody s ∧ bad.method = good.method ∧
        bad.headers = good.headers ∧ bad.url = good.url) := by
  refine ⟨?_, ?_, ?_⟩
  · intro k
    unfold build_invalid_order
    have h5 : k % malformed_payloads.length < 5 := by
      have hlen : malformed_payloads.length = 5 := rfl
      rw [hlen]
      exact Nat.mod_lt _ (by norm_num)
    set m := k % malformed_payloads.length with hm
    interval_cases m <;> simp [malformed_payloads]
  · cases hpay : build_invalid_order rnd.invalidIdx with
    | jsonVal j =>
      exact ⟨⟨c.base_url ++ "/api/order", "POST",
        dictSetdefault c.mergedHeaders "Content-Type" "application/json", .jsonBody j⟩,
        by simp [build_request, hpay]⟩
    | textVal s =>
      exact ⟨⟨c.base_url ++ "/api/order", "POST",
        dictSetdefault c.mergedHeaders "Content-Type" "application/json", .dataBody s⟩,
        by simp [build_request, hpay]⟩
    | noneVal =>
      exact ⟨⟨c.base_url ++ "/api/order", "POST",
        dictSetdefault c.mergedHeaders "Content-Type" "application/json", .noBody⟩,
        by simp [build_request, hpay]⟩
  · intro s hs
    refine ⟨⟨c.base_url ++ "/api/order", "POST",
        dictSetdefault c.mergedHeaders "Content-Type" "application/json",
        .jsonBody (build_valid_order rnd.qty)⟩,
      ⟨c.base_url ++ "/api/order", "POST",
        dictSetdefault c.mergedHeaders "Content-Type" "application/json",
        .dataBody s⟩, ?_, ?_, rfl, rfl, rfl, rfl⟩
    · simp [build_request]
    · simp [build_request, hs]

/-- Concrete configuration used in the claim C5 witness. -/
def c5cfg : TrafficConfig :=
  ⟨"http://localhost:3000/", 4, "bad", [("post_order", 1)], [("post_order", 1)], 5, 0, []⟩

/-- Claim C5, witness: index 2 draws the plain-text payload, the bad request
builds successfully, and it carries the exact text body with method and
headers identical to the good variant. -/
theorem invalid_order_fixed_set_witness :
    build_invalid_order 2 = Payload.textVal "\x7b this is not valid json \x7d" ∧
    (∃ req, build_request c5cfg "post_order" true ⟨0, 2, 1⟩ = Except.ok req) ∧
    (∃ good bad : BuiltRequest,
      build_request c5cfg "post_order" false ⟨0, 2, 1⟩ = .ok good ∧
      build_request c5cfg "post_order" true ⟨0, 2, 1⟩ = .ok bad ∧
      bad.body = .dataBody "\x7b this is not valid json \x7d" ∧
      bad.method = good.method ∧ bad.headers = good.headers ∧ bad.url = good.url) := by
  have h := invalid_order_fixed_set c5cfg ⟨0, 2, 1⟩
  exact ⟨rfl, h.2.1, h.2.2 _ rfl⟩

end TrafficSpec
